import Mathlib

/-!
Verification of the synchronization core of `src/email_archiver.py`.

The development has two layers, mirroring the structure of
`fetch_and_archive_emails`:

* a MIME layer: the body/attachment extraction loops (source lines 131-168)
  over a parsed message tree, with Python's codec machinery modelled as
  per-byte codecs and codec lookup as a finite registry (an unregistered
  charset name makes decode fail, as CPython's LookupError does, even under
  errors=replace);

* a sync layer: the dedup/insert/commit cycle over a sqlite database that is
  shared between cycles through the module-level connection.  A SELECT on
  that connection observes the connection's own uncommitted INSERTs (sqlite
  reads see the writes of their own open transaction), so the database state
  is split into `committed` rows and `pending` (inserted, not yet committed)
  rows, and the existence check consults both.  The `except` handler of
  `fetch_and_archive_emails` only logs: a failed cycle neither commits nor
  rolls back, so its pending rows survive into later cycles.
-/

namespace EmailArchiver

/-- A payload byte as returned by get_payload with decode=True. -/
abbrev Byte := Nat

/-- A per-byte codec: the meaning of one charset name.  `none` on a byte
means the byte is invalid for that charset, which Python's errors=replace
turns into U+FFFD.  (Multi-byte encodings are modelled per byte; this is
exact for single-byte codecs and for the ASCII range of utf-8.) -/
abbrev Codec := Byte → Option Char

/-- The Unicode replacement character substituted by errors=replace. -/
def replaceChar : Char := Char.ofNat 0xFFFD

/-- Codec for ascii / us-ascii: bytes below 128 are valid. -/
def asciiCodec : Codec := fun b => if b < 128 then some (Char.ofNat b) else none

/-- Codec for latin-1 / iso-8859-1: every byte below 256 is valid. -/
def latin1Codec : Codec := fun b => if b < 256 then some (Char.ofNat b) else none

/-- Codec used for utf-8 and for decode() with no argument (Python's
default).  Per-byte model: ASCII bytes decode to themselves, anything else
counts as invalid. -/
def utf8Codec : Codec := fun b => if b < 128 then some (Char.ofNat b) else none

/-- The codec registry, modelling CPython's codecs.lookup: only registered
names resolve; looking up any other declared charset raises LookupError. -/
def knownCodecs : List (String × Codec) :=
  [("ascii", asciiCodec), ("us-ascii", asciiCodec), ("utf-8", utf8Codec),
   ("latin-1", latin1Codec), ("iso-8859-1", latin1Codec)]

/-- Resolve a charset name in the registry. -/
def codecOf (name : String) : Option Codec :=
  knownCodecs.lookup name

/-- Lossy decode of a byte list under a codec: errors=replace semantics,
one output character per input byte, U+FFFD at invalid bytes. -/
def decodeReplace (c : Codec) (bs : List Byte) : String :=
  String.mk (bs.map fun b => (c b).getD replaceChar)

/-- Python's payload.decode(charset, errors=replace) when a charset was
declared, and payload.decode(errors=replace) (utf-8) when none was: the
error case is the LookupError thrown on an unregistered charset name, which
errors=replace does not suppress. -/
def pyDecode (charset : Option String) (bs : List Byte) : Except Unit String :=
  match charset with
  | none => .ok (decodeReplace utf8Codec bs)
  | some cs =>
    match codecOf cs with
    | none => .error ()
    | some c => .ok (decodeReplace c bs)

/-- A parsed MIME message tree as email.message_from_bytes yields it.  A
node is a multipart container (is_multipart, with its multipart subtype
and ordered children), a message/rfc822 part (also a container in the
parser's eyes — is_multipart is true and the payload is the single
embedded message — but of maintype message, and carrying its own optional
Content-Disposition and filename headers), or a leaf part carrying a
declared content type, the optional values of get_content_charset, get
with Content-Disposition, get_filename, and the payload bytes of
get_payload with decode=True. -/
inductive MimeNode where
  | leaf (contentType : String) (charset : Option String)
      (disposition : Option String) (filename : Option String)
      (payload : List Byte)
  | container (subtype : String) (children : List MimeNode)
  | rfc822 (disposition : Option String) (filename : Option String)
      (child : MimeNode)
deriving Repr

/-- get_content_type of a node: leaves carry their declared type, a
multipart container's type is multipart slash its subtype, a forwarded
message part's type is message/rfc822. -/
def contentTypeOf : MimeNode → String
  | .leaf ct _ _ _ _ => ct
  | .container s _ => "multipart/" ++ s
  | .rfc822 _ _ _ => "message/rfc822"

/-- get_content_maintype: the part of the content type before the first
slash (Python's ctype.split with slash, first element). -/
def maintypeOf (ct : String) : String :=
  String.mk (ct.data.takeWhile fun c => c != '/')

/-- The content-type test of source line 135: text/plain or text/html. -/
def isTextNode (n : MimeNode) : Bool :=
  contentTypeOf n == "text/plain" || contentTypeOf n == "text/html"

mutual

/-- Message.walk: the node itself, then its children depth-first, in
order; a message/rfc822 part is walked into like any container, its
single embedded message being its one child. -/
def walk : MimeNode → List MimeNode
  | .leaf ct ch d f p => [.leaf ct ch d f p]
  | .container s cs => .container s cs :: walkMany cs
  | .rfc822 d f c => .rfc822 d f c :: walk c

/-- Walk a list of sibling subtrees in order. -/
def walkMany : List MimeNode → List MimeNode
  | [] => []
  | n :: ns => walk n ++ walkMany ns

end

/-- Decode one walked part the way the body loop does: get_payload with
decode=True then decode under get_content_charset.  On a multipart or
message/rfc822 container, get_payload with decode=True is None and
None.decode raises (these branches are unreachable from `extractBody`
because neither multipart slash anything nor message/rfc822 is a text
content type). -/
def decodePart : MimeNode → Except Unit String
  | .leaf _ ch _ _ p => pyDecode ch p
  | .container _ _ => .error ()
  | .rfc822 _ _ _ => .error ()

/-- One iteration of the body loop of source lines 133-141. -/
def bodyStep (acc : String) (n : MimeNode) : Except Unit String :=
  if isTextNode n then
    match decodePart n with
    | .ok s => .ok (acc ++ s)
    | .error e => .error e
  else .ok acc

/-- Body extraction, source lines 131-148: a message whose is_multipart is
true — a multipart container or a message/rfc822 part, both holding list
payloads — walks all parts and appends the decode of each text/plain or
text/html part; a non-multipart message decodes its own payload
unconditionally. -/
def extractBody : MimeNode → Except Unit String
  | .container s cs => (walk (.container s cs)).foldlM bodyStep ""
  | .rfc822 d f c => (walk (.rfc822 d f c)).foldlM bodyStep ""
  | .leaf _ ch _ _ p => pyDecode ch p

/-- One iteration of the attachment loop of source lines 158-168: skip
parts of declared maintype multipart — and only those — skip parts whose
Content-Disposition is None, then, if get_filename is truthy (not None
and not empty), insert one attachment row with the filename and the value
of get_payload with decode=True: the payload bytes for a leaf, but None
(a NULL content column) for a message/rfc822 container, whose maintype
message passes the line 159 test while its list payload makes
get_payload with decode=True return None. -/
def attachStep (acc : List (String × Option (List Byte))) (n : MimeNode) :
    List (String × Option (List Byte)) :=
  if maintypeOf (contentTypeOf n) == "multipart" then acc
  else
    match n with
    | .container _ _ => acc
    | .leaf _ _ disp fn p =>
      match disp with
      | none => acc
      | some _ =>
        match fn with
        | none => acc
        | some f => if f == "" then acc else acc ++ [(f, some p)]
    | .rfc822 disp fn _ =>
      match disp with
      | none => acc
      | some _ =>
        match fn with
        | none => acc
        | some f => if f == "" then acc else acc ++ [(f, none)]

/-- The attachment loop over the whole walk, source lines 158-168. -/
def extractAttachments (root : MimeNode) :
    List (String × Option (List Byte)) :=
  (walk root).foldl attachStep []

/-- The per-node attachment selector that `extractAttachments` realizes:
one record for every walked node of non-multipart declared maintype
carrying a disposition and a non-empty filename — its payload bytes when
it is a leaf, NULL content when it is a message/rfc822 container — and
nothing for any other node. -/
def attachSel : MimeNode → Option (String × Option (List Byte))
  | .container _ _ => none
  | .leaf ct _ disp fn p =>
    if maintypeOf ct == "multipart" then none
    else
      match disp, fn with
      | some _, some f => if f == "" then none else some (f, some p)
      | _, _ => none
  | .rfc822 disp fn _ =>
    match disp, fn with
    | some _, some f => if f == "" then none else some (f, none)
    | _, _ => none

/-- The protocol tag of an account, source column accounts.protocol. -/
inductive Protocol where
  | imap
  | pop3
deriving Repr, DecidableEq

/-- Python str conversion of a possibly absent header value: a missing
header read from the message renders as the string None inside the pop3
f-string key. -/
def pyStr : Option String → String
  | none => "None"
  | some s => s

/-- A fetched message as the cycle sees it after parsing: the handle it was
fetched by (imap uid as a string, pop3 ordinal), the five headers read on
source lines 111-115, and the body computed by the MIME layer. -/
structure Msg where
  uid : String
  messageId : Option String
  date : Option String
  sender : Option String
  subject : Option String
  recipients : Option String
  body : String
deriving Repr, DecidableEq

/-- The identity key of source lines 117-121: the imap uid as a string, or
the underscore join of Message-ID, Date, From and Subject for pop3. -/
def uniqueId (p : Protocol) (m : Msg) : String :=
  match p with
  | .imap => m.uid
  | .pop3 =>
    pyStr m.messageId ++ "_" ++ pyStr m.date ++ "_" ++ pyStr m.sender
      ++ "_" ++ pyStr m.subject

/-- A row of the emails table as inserted on source lines 151-152. -/
structure Row where
  account_id : Nat
  subject : Option String
  sender : Option String
  recipients : Option String
  date : Option String
  body : String
  unique_id : String
deriving Repr, DecidableEq

/-- The row the INSERT of source lines 151-152 writes for one message. -/
def rowOf (acct : Nat) (p : Protocol) (m : Msg) : Row :=
  { account_id := acct, subject := m.subject, sender := m.sender,
    recipients := m.recipients, date := m.date, body := m.body,
    unique_id := uniqueId p m }

/-- The emails table as seen through the single module-level sqlite
connection: rows already committed by conn.commit, and rows inserted on
this connection but not yet committed.  The connection is shared by every
cycle of every account. -/
structure DB where
  committed : List Row
  pending : List Row
deriving Repr, DecidableEq

/-- The rows a SELECT on the shared connection observes: sqlite reads see
the connection's own open transaction, so committed and pending rows. -/
def tableRows (db : DB) : List Row := db.committed ++ db.pending

/-- Membership of an identity key in a list of rows. -/
def memKey (rows : List Row) (k : String) : Bool :=
  rows.any fun r => r.unique_id == k

/-- Number of rows carrying an identity key. -/
def countKey (rows : List Row) (k : String) : Nat :=
  (rows.filter fun r => r.unique_id == k).length

/-- The skip check of source lines 124-126: SELECT id FROM emails WHERE
unique_id matches, on the shared connection, hence over committed and
pending rows alike. -/
def existsUid (db : DB) (k : String) : Bool :=
  memKey (tableRows db) k

/-- INSERT INTO emails, source lines 151-152: the row joins the open
transaction's pending rows. -/
def insertRow (db : DB) (r : Row) : DB :=
  { db with pending := db.pending ++ [r] }

/-- conn.commit, source line 173: every pending row becomes committed. -/
def commitDB (db : DB) : DB :=
  { committed := db.committed ++ db.pending, pending := [] }

/-- Running state of one cycle: the database plus the number of messages
inserted and skipped so far. -/
structure CycleRes where
  db : DB
  inserted : Nat
  skipped : Nat
deriving Repr, DecidableEq

/-- The per-message step of the loop at source lines 96-170: compute the
identity key, skip when the SELECT finds it, otherwise insert the row. -/
def processMsg (acct : Nat) (p : Protocol) (st : CycleRes) (m : Msg) :
    CycleRes :=
  let k := uniqueId p m
  if existsUid st.db k then
    { st with skipped := st.skipped + 1 }
  else
    { db := insertRow st.db (rowOf acct p m), inserted := st.inserted + 1,
      skipped := st.skipped }

/-- The message loop over the session's enumeration. -/
def processMsgs (acct : Nat) (p : Protocol) (st : CycleRes)
    (msgs : List Msg) : CycleRes :=
  msgs.foldl (processMsg acct p) st

/-- One successful cycle of fetch_and_archive_emails for one account: the
whole enumeration is processed, then conn.commit runs (source line 173). -/
def runCycle (db : DB) (acct : Nat) (p : Protocol) (msgs : List Msg) :
    CycleRes :=
  let r := processMsgs acct p { db := db, inserted := 0, skipped := 0 } msgs
  { r with db := commitDB r.db }

/-- A cycle that fails after fully processing j messages but before the
commit at source line 173 (a connection, protocol or storage exception in
the enumeration or message loop, caught by the handler at source lines
184-185): the handler only logs, so no commit runs and no rollback runs
either — the rows buffered so far stay pending on the shared connection. -/
def runCycleFail (db : DB) (acct : Nat) (p : Protocol) (msgs : List Msg)
    (j : Nat) : DB :=
  (processMsgs acct p { db := db, inserted := 0, skipped := 0 }
    (msgs.take j)).db

/-- A cycle that processes the whole enumeration and reaches the commit at
source line 173, but then dies closing the session: client.close, logout
and quit (source lines 176-180) run inside the try AFTER conn.commit, so
an error there is caught by the same handler at lines 184-185 and the
cycle is reported failed with its whole batch already committed.  The
database effect is identical to a successful cycle's; only the logged
outcome differs. -/
def runCycleFailClose (db : DB) (acct : Nat) (p : Protocol)
    (msgs : List Msg) : DB :=
  commitDB (processMsgs acct p { db := db, inserted := 0, skipped := 0 }
    msgs).db

/-- What one account contributes to a scheduling tick: a cycle that runs
to commit and closes cleanly, one that dies with an exception after j
messages before the commit, or one that commits and then dies closing the
session. -/
inductive CycleInput where
  | ok (acct : Nat) (p : Protocol) (msgs : List Msg)
  | fail (acct : Nat) (p : Protocol) (msgs : List Msg) (j : Nat)
  | failClose (acct : Nat) (p : Protocol) (msgs : List Msg)
deriving Repr

/-- The per-account outcome a tick records (the log line written by
fetch_and_archive_emails on completion or by its exception handler). -/
inductive Outcome where
  | success (inserted skipped : Nat)
  | failed
deriving Repr, DecidableEq

/-- Run one account inside a tick of run_archiver. -/
def stepAccount (db : DB) : CycleInput → DB × Outcome
  | .ok a p ms =>
    let r := runCycle db a p ms
    (r.db, .success r.inserted r.skipped)
  | .fail a p ms j => (runCycleFail db a p ms j, .failed)
  | .failClose a p ms => (runCycleFailClose db a p ms, .failed)

/-- One tick of run_archiver, source lines 266-273: every configured
account is processed in order on the shared connection, and the exception
handler inside fetch_and_archive_emails guarantees the loop reaches every
account whatever any earlier account did. -/
def runTick (db : DB) (inputs : List CycleInput) : DB × List Outcome :=
  inputs.foldl
    (fun st i =>
      let r := stepAccount st.1 i
      (r.1, st.2 ++ [r.2]))
    (db, [])

/-- Database states reachable by the archiver from a fresh database:
any interleaving of successful and failed cycles for any accounts,
protocols and message sets. -/
inductive Reachable : DB → Prop where
  | init : Reachable { committed := [], pending := [] }
  | step_ok (db : DB) (a : Nat) (p : Protocol) (ms : List Msg) :
      Reachable db → Reachable (runCycle db a p ms).db
  | step_fail (db : DB) (a : Nat) (p : Protocol) (ms : List Msg) (j : Nat) :
      Reachable db → Reachable (runCycleFail db a p ms j)

/-- Concatenation of decoded text fragments in traversal order. -/
def joinStrings : List String → String
  | [] => ""
  | s :: ss => s ++ joinStrings ss

/-- Spec-side reading of the body loop of section 4.3, for comparison with
`extractBody`: only the text-typed nodes of the walk are consulted at all. -/
def bodyFromTextLeaves (ns : List MimeNode) : Except Unit String :=
  (ns.filter isTextNode).foldlM bodyStep ""

/-! Lemmas about the MIME layer. -/

theorem isTextNode_container (s : String) (cs : List MimeNode) :
    isTextNode (.container s cs) = false := by
  cases s
  rfl

theorem maintypeOf_container (s : String) :
    maintypeOf ("multipart/" ++ s) = "multipart" := by
  cases s
  rfl

theorem bodyStep_not_text {n : MimeNode} (h : isTextNode n = false)
    (acc : String) : bodyStep acc n = .ok acc := by
  simp [bodyStep, h]

theorem foldlM_bodyStep_filter (ns : List MimeNode) (acc : String) :
    ns.foldlM bodyStep acc = (ns.filter isTextNode).foldlM bodyStep acc := by
  induction ns generalizing acc with
  | nil => rfl
  | cons n ns ih =>
    cases h : isTextNode n with
    | false =>
      rw [List.foldlM_cons, bodyStep_not_text h]
      show ns.foldlM bodyStep acc = _
      rw [ih, List.filter_cons, if_neg (by simp [h])]
    | true =>
      rw [List.foldlM_cons, List.filter_cons, if_pos (by simp [h]),
        List.foldlM_cons]
      cases hb : bodyStep acc n with
      | error e => rfl
      | ok acc1 =>
        show ns.foldlM bodyStep acc1 = _
        rw [ih]
        rfl

theorem foldlM_bodyStep_all_text (ns : List MimeNode) (ss : List String)
    (acc : String) (hall : ∀ n ∈ ns, isTextNode n = true)
    (h : ns.mapM decodePart = Except.ok ss) :
    ns.foldlM bodyStep acc = .ok (acc ++ joinStrings ss) := by
  induction ns generalizing acc ss with
  | nil =>
    cases h
    show Except.ok acc = Except.ok (acc ++ "")
    rw [show acc ++ "" = acc by cases acc with
      | mk l => apply congrArg String.mk; exact List.append_nil l]
  | cons n ns ih =>
    rw [List.mapM_cons] at h
    cases hd : decodePart n with
    | error e => rw [hd] at h; cases h
    | ok s0 =>
      rw [hd] at h
      cases ht : ns.mapM decodePart with
      | error e => rw [ht] at h; cases h
      | ok ss1 =>
        rw [ht] at h
        cases h
        rw [List.foldlM_cons]
        have hn : isTextNode n = true := hall n (by simp)
        rw [show bodyStep acc n = Except.ok (acc ++ s0) by
          simp [bodyStep, hn, hd]]
        show ns.foldlM bodyStep (acc ++ s0) = _
        rw [ih ss1 (acc ++ s0) (fun x hx => hall x (by simp [hx])) ht,
          joinStrings, String.append_assoc]

theorem attachStep_eq (acc : List (String × Option (List Byte)))
    (n : MimeNode) :
    attachStep acc n = acc ++ (attachSel n).toList := by
  cases n with
  | container s cs =>
    simp [attachStep, attachSel, contentTypeOf, maintypeOf_container]
  | leaf ct ch d f p =>
    by_cases hm : maintypeOf ct = "multipart"
    · simp [attachStep, attachSel, contentTypeOf, hm]
    · cases d with
      | none => simp [attachStep, attachSel, contentTypeOf, hm]
      | some dv =>
        cases f with
        | none => simp [attachStep, attachSel, contentTypeOf, hm]
        | some fv =>
          by_cases hf : fv = ""
          · simp [attachStep, attachSel, contentTypeOf, hm, hf]
          · simp [attachStep, attachSel, contentTypeOf, hm, hf]
  | rfc822 d f c =>
    have hm : (maintypeOf (contentTypeOf (MimeNode.rfc822 d f c))
        == "multipart") = false := rfl
    cases d with
    | none => simp [attachStep, attachSel, hm]
    | some dv =>
      cases f with
      | none => simp [attachStep, attachSel, hm]
      | some fv =>
        by_cases hf : fv = ""
        · simp [attachStep, attachSel, hm, hf]
        · simp [attachStep, attachSel, hm, hf]

theorem foldl_attachStep (ns : List MimeNode)
    (acc : List (String × Option (List Byte))) :
    ns.foldl attachStep acc = acc ++ ns.filterMap attachSel := by
  induction ns generalizing acc with
  | nil => simp
  | cons n ns ih =>
    rw [List.foldl_cons, attachStep_eq, ih, List.filterMap_cons]
    cases attachSel n <;> simp

/-! Claim C4 (decode totality). -/

/-- Claim C4, counterexample: the claim says decomposition never raises for
every leaf payload and every declared charset, but a declared charset whose
name is not a registered codec makes payload.decode raise LookupError —
errors=replace does not suppress codec lookup failure — so decomposing this
single-leaf text message fails and the enclosing cycle's handler drops the
message. -/
theorem decode_unknown_charset_raises :
    extractBody (.leaf "text/plain" (some "x-user-charset") none none [72])
      = Except.error () := rfl

/-- Claim C4, amended: for every declared charset that resolves in the
codec registry (and when no charset is declared, for the default utf-8
decode), decoding is total: it never fails, output length equals payload
length, bytes invalid under the codec decode to the replacement character
and valid bytes decode to their character. -/
theorem decode_known_codec_total (name : String) (c : Codec) (bs : List Byte)
    (h : codecOf name = some c) :
    pyDecode (some name) bs = .ok (decodeReplace c bs) ∧
    pyDecode none bs = .ok (decodeReplace utf8Codec bs) ∧
    (decodeReplace c bs).length = bs.length ∧
    (∀ (i : Nat) (b : Byte), bs[i]? = some b → c b = none →
      (decodeReplace c bs).data[i]? = some replaceChar) ∧
    (∀ (i : Nat) (b : Byte) (ch : Char), bs[i]? = some b → c b = some ch →
      (decodeReplace c bs).data[i]? = some ch) := by
  refine ⟨by simp [pyDecode, h], rfl, ?_, ?_, ?_⟩
  · show (bs.map _).length = bs.length
    simp
  · intro i b hb hc
    show (bs.map _)[i]? = some replaceChar
    rw [List.getElem?_map, hb]
    simp [hc]
  · intro i b ch hb hc
    show (bs.map _)[i]? = some ch
    rw [List.getElem?_map, hb]
    simp [hc]

/-- Claim C4 witness: ascii decode of a valid byte followed by an invalid
byte succeeds, with the replacement character at the invalid position. -/
theorem decode_known_codec_total_witness :
    pyDecode (some "ascii") [72, 255]
      = .ok (decodeReplace asciiCodec [72, 255]) ∧
    (decodeReplace asciiCodec [72, 255]).data[1]? = some replaceChar :=
  ⟨(decode_known_codec_total "ascii" asciiCodec [72, 255] rfl).1,
   (decode_known_codec_total "ascii" asciiCodec [72, 255] rfl).2.2.2.1
     1 255 rfl rfl⟩

/-! Claim C5 (body reconstruction order). -/

/-- Claim C5, counterexample: the claim predicts that a message whose part
tree contains zero text leaves gets the empty concatenation as body, but a
non-multipart message falls into the else branch of source lines 142-148,
which decodes the sole payload whatever its content type: this
octet-stream message has no text leaf yet its body decodes to B. -/
theorem body_nonmultipart_counterexample :
    (walk (.leaf "application/octet-stream" none none none [66])).filter
        isTextNode = ([] : List MimeNode) ∧
    extractBody (.leaf "application/octet-stream" none none none [66])
      = Except.ok "B" ∧
    "B" ≠ joinStrings [] :=
  ⟨rfl, rfl, by decide⟩

/-- Claim C5, amended: for every multipart message whose text leaves decode
to s1..sN, the body is the concatenation s1 to sN in depth-first traversal
order; for a non-multipart message the body is the decode of its sole
payload regardless of content type (which agrees with the claim exactly
when that sole part is a text part). -/
theorem body_concat_text_leaves :
    (∀ (s : String) (cs : List MimeNode) (ss : List String),
      ((walk (.container s cs)).filter isTextNode).mapM decodePart
          = Except.ok ss →
      extractBody (.container s cs) = .ok (joinStrings ss)) ∧
    (∀ (ct : String) (ch : Option String) (d f : Option String)
      (p : List Byte),
      extractBody (.leaf ct ch d f p) = pyDecode ch p) := by
  constructor
  · intro s cs ss h
    show (walk (.container s cs)).foldlM bodyStep "" = _
    rw [foldlM_bodyStep_filter]
    have hall : ∀ n ∈ (walk (.container s cs)).filter isTextNode,
        isTextNode n = true := fun n hn => (List.mem_filter.mp hn).2
    exact foldlM_bodyStep_all_text _ ss "" hall h
  · intro ct ch d f p
    rfl

/-- Claim C5 witness: a multipart message with two text leaves in order. -/
theorem body_concat_text_leaves_witness :
    extractBody (.container "alternative"
      [.leaf "text/plain" (some "ascii") none none [72, 105],
       .leaf "text/html" none none none [89, 111]])
      = Except.ok (joinStrings ["Hi", "Yo"]) :=
  body_concat_text_leaves.1 "alternative"
    [.leaf "text/plain" (some "ascii") none none [72, 105],
     .leaf "text/html" none none none [89, 111]] ["Hi", "Yo"] rfl

/-! Claim C6 (only text leaves contribute to the body). -/

/-- Claim C6, counterexample: the claim says a leaf of non-text content
type contributes nothing, including the sole leaf of a non-multipart
message; but the else branch of source lines 142-148 decodes the sole
payload of this application/pdf message into the body. -/
theorem body_nontext_leaf_counterexample :
    isTextNode (.leaf "application/pdf" none none none [65]) = false ∧
    extractBody (.leaf "application/pdf" none none none [65])
      = Except.ok "A" ∧
    "A" ≠ "" :=
  ⟨rfl, rfl, by decide⟩

/-- Claim C6, amended: in a multipart message the body is computed from the
text-typed nodes of the walk alone — nodes of any other content type are
never consulted — and a container node is never text-typed, hence
contributes nothing directly; for a non-multipart message, however, the
sole leaf's payload is decoded into the body regardless of content type. -/
theorem body_only_text_in_multipart :
    (∀ (s : String) (cs : List MimeNode),
      extractBody (.container s cs)
        = bodyFromTextLeaves (walk (.container s cs))) ∧
    (∀ (s : String) (cs : List MimeNode),
      isTextNode (.container s cs) = false) ∧
    (∀ (ct : String) (ch : Option String) (d f : Option String)
      (p : List Byte),
      extractBody (.leaf ct ch d f p) = pyDecode ch p) := by
  refine ⟨?_, isTextNode_container, fun _ _ _ _ _ => rfl⟩
  intro s cs
  show (walk (.container s cs)).foldlM bodyStep "" = _
  rw [foldlM_bodyStep_filter]
  rfl

/-! Claim C7 (attachment extraction postcondition). -/

/-- Claim C7, counterexample: the claim says a leaf with a disposition and
a non-empty filename yields exactly one attachment record regardless of
content type, but the loop's first test (source line 159) skips any part
whose content maintype is multipart — and a defective message can parse to
a leaf that declares multipart/mixed — so this leaf, disposition and
filename present, yields no record at all. -/
theorem attachment_multipart_leaf_skipped :
    extractAttachments
        (.leaf "multipart/mixed" none (some "attachment") (some "a.bin")
          [1, 2]) = [] ∧
    ([] : List (String × Option (List Byte))) ≠ [("a.bin", some [1, 2])] ∧
    extractAttachments
        (.rfc822 (some "attachment") (some "fwd.eml")
          (.leaf "text/plain" none none none [65]))
      = [("fwd.eml", none)] :=
  ⟨rfl, by decide, rfl⟩

/-- Claim C7, amended: the attachment loop tests only the declared content
maintype (source line 159), so the records are exactly one per walked node
of non-multipart maintype carrying a disposition header and a non-empty
filename: a qualifying leaf yields one record holding the filename and
exactly its raw decoded payload bytes, while a qualifying message/rfc822
container — which the maintype test does not skip — yields one record
holding the filename and NULL content, since get_payload with decode=True
is None on a container; leaves of multipart maintype are skipped like
multipart containers, and every node lacking a disposition header or a
non-empty filename produces no record. -/
theorem attachments_characterization :
    (∀ root : MimeNode,
      extractAttachments root = (walk root).filterMap attachSel) ∧
    (∀ (ct : String) (ch : Option String) (dv f : String) (p : List Byte),
      maintypeOf ct ≠ "multipart" → f ≠ "" →
      attachSel (.leaf ct ch (some dv) (some f) p) = some (f, some p)) ∧
    (∀ (dv f : String) (child : MimeNode), f ≠ "" →
      attachSel (.rfc822 (some dv) (some f) child) = some (f, none)) := by
  refine ⟨?_, ?_, ?_⟩
  · intro root
    show (walk root).foldl attachStep [] = _
    rw [foldl_attachStep]
    simp
  · intro ct ch dv f p hm hf
    simp [attachSel, hm, hf]
  · intro dv f child hf
    simp [attachSel, hf]

/-- Claim C7 witness: a pdf leaf with disposition and filename yields its
payload record, and a forwarded message/rfc822 part with disposition and
filename yields a NULL-content record. -/
theorem attachments_characterization_witness :
    attachSel (.leaf "application/pdf" none (some "attachment")
        (some "report.pdf") [9, 8]) = some ("report.pdf", some [9, 8]) ∧
    attachSel (.rfc822 (some "attachment") (some "fwd.eml")
        (.leaf "text/plain" none none none [65]))
      = some ("fwd.eml", none) :=
  ⟨attachments_characterization.2.1 "application/pdf" none "attachment"
      "report.pdf" [9, 8] (by decide) (by decide),
   attachments_characterization.2.2 "attachment" "fwd.eml"
      (.leaf "text/plain" none none none [65]) (by decide)⟩

/-! Lemmas about the sync layer. -/

theorem memKey_append (l1 l2 : List Row) (k : String) :
    memKey (l1 ++ l2) k = (memKey l1 k || memKey l2 k) := by
  simp [memKey, List.any_append]

theorem countKey_append (l1 l2 : List Row) (k : String) :
    countKey (l1 ++ l2) k = countKey l1 k + countKey l2 k := by
  simp [countKey, List.filter_append]

theorem countKey_eq_zero (rows : List Row) (k : String)
    (h : memKey rows k = false) : countKey rows k = 0 := by
  rw [countKey, List.length_eq_zero, List.filter_eq_nil_iff]
  intro r hr
  simp only [memKey, List.any_eq_false] at h
  exact h r hr

theorem rowOf_unique_id (a : Nat) (p : Protocol) (m : Msg) :
    (rowOf a p m).unique_id = uniqueId p m := rfl

theorem tableRows_insertRow (db : DB) (r : Row) :
    tableRows (insertRow db r) = tableRows db ++ [r] := by
  simp [tableRows, insertRow]

theorem tableRows_commitDB (db : DB) :
    tableRows (commitDB db) = tableRows db := by
  simp [tableRows, commitDB]

theorem existsUid_insertRow (db : DB) (r : Row) (k : String) :
    existsUid (insertRow db r) k = (existsUid db k || (r.unique_id == k)) := by
  simp [existsUid, tableRows_insertRow, memKey_append, memKey]

theorem existsUid_commitDB (db : DB) (k : String) :
    existsUid (commitDB db) k = existsUid db k := by
  simp [existsUid, tableRows_commitDB]

theorem processMsg_skip (a : Nat) (p : Protocol) (st : CycleRes) (m : Msg)
    (h : existsUid st.db (uniqueId p m) = true) :
    processMsg a p st m = { st with skipped := st.skipped + 1 } := by
  simp [processMsg, h]

theorem processMsg_insert (a : Nat) (p : Protocol) (st : CycleRes) (m : Msg)
    (h : existsUid st.db (uniqueId p m) = false) :
    processMsg a p st m =
      { db := insertRow st.db (rowOf a p m), inserted := st.inserted + 1,
        skipped := st.skipped } := by
  simp [processMsg, h]

theorem committed_processMsgs (a : Nat) (p : Protocol) (st : CycleRes)
    (ms : List Msg) :
    (processMsgs a p st ms).db.committed = st.db.committed := by
  induction ms generalizing st with
  | nil => rfl
  | cons m ms ih =>
    show (processMsgs a p (processMsg a p st m) ms).db.committed = _
    rw [ih]
    cases h : existsUid st.db (uniqueId p m) with
    | true => rw [processMsg_skip a p st m h]
    | false => rw [processMsg_insert a p st m h]; rfl

theorem pending_processMsgs (a : Nat) (p : Protocol) (st : CycleRes)
    (ms : List Msg) :
    ∃ buf, (processMsgs a p st ms).db.pending = st.db.pending ++ buf := by
  induction ms generalizing st with
  | nil => exact ⟨[], by simp [processMsgs]⟩
  | cons m ms ih =>
    show ∃ buf, (processMsgs a p (processMsg a p st m) ms).db.pending = _
    cases h : existsUid st.db (uniqueId p m) with
    | true =>
      obtain ⟨buf, hb⟩ := ih ⟨st.db, st.inserted, st.skipped + 1⟩
      exact ⟨buf, by rw [processMsg_skip a p st m h]; exact hb⟩
    | false =>
      obtain ⟨buf, hb⟩ :=
        ih ⟨insertRow st.db (rowOf a p m), st.inserted + 1, st.skipped⟩
      refine ⟨rowOf a p m :: buf, ?_⟩
      rw [processMsg_insert a p st m h, hb]
      simp [insertRow]

theorem existsUid_processMsgs (a : Nat) (p : Protocol) (st : CycleRes)
    (ms : List Msg) (k : String) :
    existsUid (processMsgs a p st ms).db k =
      (existsUid st.db k || ms.any fun m => uniqueId p m == k) := by
  induction ms generalizing st with
  | nil => simp [processMsgs]
  | cons m ms ih =>
    show existsUid (processMsgs a p (processMsg a p st m) ms).db k = _
    rw [ih, List.any_cons]
    cases h : existsUid st.db (uniqueId p m) with
    | true =>
      rw [processMsg_skip a p st m h]
      by_cases hk : uniqueId p m = k
      · subst hk; simp [h]
      · simp [show (uniqueId p m == k) = false by simp [hk]]
    | false =>
      rw [processMsg_insert a p st m h]
      show (existsUid (insertRow st.db (rowOf a p m)) k || _) = _
      rw [existsUid_insertRow, rowOf_unique_id, Bool.or_assoc]

theorem countKey_processMsgs (a : Nat) (p : Protocol) (st : CycleRes)
    (ms : List Msg) (k : String) :
    countKey (tableRows (processMsgs a p st ms).db) k =
      if existsUid st.db k then countKey (tableRows st.db) k
      else if ms.any (fun m => uniqueId p m == k) then 1 else 0 := by
  induction ms generalizing st with
  | nil =>
    cases h : existsUid st.db k with
    | true => simp [processMsgs]
    | false => simp [processMsgs, countKey_eq_zero _ _ h]
  | cons m ms ih =>
    show countKey (tableRows (processMsgs a p (processMsg a p st m) ms).db) k
      = _
    rw [ih]
    cases h : existsUid st.db (uniqueId p m) with
    | true =>
      rw [processMsg_skip a p st m h]
      by_cases hk : uniqueId p m = k
      · subst hk; simp [h]
      · simp [List.any_cons, show (uniqueId p m == k) = false by simp [hk]]
    | false =>
      rw [processMsg_insert a p st m h]
      by_cases hk : uniqueId p m = k
      · subst hk
        have h0 : countKey (tableRows st.db) (uniqueId p m) = 0 :=
          countKey_eq_zero _ _ h
        simp [existsUid_insertRow, rowOf_unique_id, h,
          tableRows_insertRow, countKey_append, h0, countKey, List.any_cons]
        simp only [existsUid, memKey, List.any_eq_false] at h
        intro r hr
        simpa using h r hr
      · have hbk : (uniqueId p m == k) = false := by simp [hk]
        have h1 : countKey [rowOf a p m] k = 0 := by
          simp [countKey, rowOf_unique_id, List.filter, hbk]
        simp [existsUid_insertRow, rowOf_unique_id, hbk,
          tableRows_insertRow, countKey_append, h1, List.any_cons]

theorem processMsgs_all_skip (a : Nat) (p : Protocol) (st : CycleRes)
    (ms : List Msg)
    (h : ∀ m ∈ ms, existsUid st.db (uniqueId p m) = true) :
    processMsgs a p st ms = { st with skipped := st.skipped + ms.length } := by
  induction ms generalizing st with
  | nil => simp [processMsgs]
  | cons m ms ih =>
    show processMsgs a p (processMsg a p st m) ms = _
    rw [processMsg_skip a p st m (h m (by simp))]
    rw [ih ⟨st.db, st.inserted, st.skipped + 1⟩
        (fun x hx => h x (by simp [hx]))]
    simp [CycleRes.mk.injEq]
    omega

theorem commitDB_pending_empty (db : DB) (h : db.pending = []) :
    commitDB db = db := by
  cases db with
  | mk c pnd =>
    simp only at h
    subst h
    simp [commitDB]

theorem keys_nodup_processMsg (a : Nat) (p : Protocol) (st : CycleRes)
    (m : Msg) (h : ((tableRows st.db).map Row.unique_id).Nodup) :
    ((tableRows (processMsg a p st m).db).map Row.unique_id).Nodup := by
  cases he : existsUid st.db (uniqueId p m) with
  | true => rw [processMsg_skip a p st m he]; exact h
  | false =>
    rw [processMsg_insert a p st m he]
    show ((tableRows (insertRow st.db (rowOf a p m))).map Row.unique_id).Nodup
    rw [tableRows_insertRow, List.map_append, List.nodup_append]
    refine ⟨h, by simp, ?_⟩
    intro x hx hx2
    simp [rowOf_unique_id] at hx2
    subst hx2
    obtain ⟨r, hr, hru⟩ := List.mem_map.mp hx
    have hc : existsUid st.db (uniqueId p m) = true := by
      simp only [existsUid, memKey, List.any_eq_true]
      exact ⟨r, hr, by simp [hru]⟩
    rw [hc] at he
    cases he

theorem keys_nodup_processMsgs (a : Nat) (p : Protocol) (st : CycleRes)
    (ms : List Msg) (h : ((tableRows st.db).map Row.unique_id).Nodup) :
    ((tableRows (processMsgs a p st ms).db).map Row.unique_id).Nodup := by
  induction ms generalizing st with
  | nil => exact h
  | cons m ms ih =>
    show ((tableRows (processMsgs a p (processMsg a p st m) ms).db).map
      Row.unique_id).Nodup
    exact ih _ (keys_nodup_processMsg a p st m h)

theorem runTick_acc (inputs : List CycleInput) (db : DB)
    (acc : List Outcome) :
    inputs.foldl
        (fun st i =>
          let r := stepAccount st.1 i
          (r.1, st.2 ++ [r.2]))
        (db, acc)
      = ((runTick db inputs).1, acc ++ (runTick db inputs).2) := by
  induction inputs generalizing db acc with
  | nil => simp [runTick]
  | cons i is ih =>
    have hR : runTick db (i :: is)
        = ((runTick (stepAccount db i).1 is).1,
           (stepAccount db i).2 :: (runTick (stepAccount db i).1 is).2) := by
      show is.foldl
          (fun st j =>
            let r := stepAccount st.1 j
            (r.1, st.2 ++ [r.2]))
          ((stepAccount db i).1, [(stepAccount db i).2]) = _
      rw [ih]
      simp
    show is.foldl
        (fun st j =>
          let r := stepAccount st.1 j
          (r.1, st.2 ++ [r.2]))
        ((stepAccount db i).1, acc ++ [(stepAccount db i).2])
      = ((runTick db (i :: is)).1, acc ++ (runTick db (i :: is)).2)
    rw [ih, hR]
    simp

theorem runTick_cons (db : DB) (i : CycleInput) (is : List CycleInput) :
    runTick db (i :: is)
      = ((runTick (stepAccount db i).1 is).1,
         (stepAccount db i).2 :: (runTick (stepAccount db i).1 is).2) := by
  show is.foldl
      (fun st j =>
        let r := stepAccount st.1 j
        (r.1, st.2 ++ [r.2]))
      ((stepAccount db i).1, [(stepAccount db i).2]) = _
  rw [runTick_acc]
  simp

theorem runTick_append (db : DB) (xs ys : List CycleInput) :
    runTick db (xs ++ ys)
      = ((runTick (runTick db xs).1 ys).1,
         (runTick db xs).2 ++ (runTick (runTick db xs).1 ys).2) := by
  show (xs ++ ys).foldl
      (fun st j =>
        let r := stepAccount st.1 j
        (r.1, st.2 ++ [r.2]))
      (db, []) = _
  rw [List.foldl_append]
  show ys.foldl
      (fun st j =>
        let r := stepAccount st.1 j
        (r.1, st.2 ++ [r.2]))
      (runTick db xs) = _
  rw [show (runTick db xs) = ((runTick db xs).1, (runTick db xs).2) from rfl]
  rw [runTick_acc]

/-! Concrete messages used by counterexamples and witnesses. -/

/-- Variant A message with server identifier 101 (spec section 8 item 4). -/
def m101 : Msg :=
  { uid := "101", messageId := some "a1@x", date := some "d1",
    sender := some "s1@x", subject := some "one", recipients := none,
    body := "b101" }

/-- Variant A message with server identifier 102. -/
def m102 : Msg :=
  { uid := "102", messageId := some "a2@x", date := some "d2",
    sender := some "s2@x", subject := some "two", recipients := none,
    body := "b102" }

/-- Variant A message fetched by a cycle that then dies. -/
def mNext : Msg :=
  { uid := "202", messageId := some "a3@x", date := some "d3",
    sender := some "s3@x", subject := some "three", recipients := none,
    body := "b202" }

/-- First of two pop3 messages sharing all four key headers
(spec section 8 item 5). -/
def mDupA : Msg :=
  { uid := "1", messageId := some "abc@x", date := some "Mon, 1 Jan",
    sender := some "a@b.com", subject := some "hi", recipients := none,
    body := "first body" }

/-- Second pop3 message with the same four headers but a different body. -/
def mDupB : Msg :=
  { uid := "2", messageId := some "abc@x", date := some "Mon, 1 Jan",
    sender := some "a@b.com", subject := some "hi", recipients := none,
    body := "second body" }

/-! Claim C1 (idempotence of synchronization). -/

/-- Claim C1: running the cycle twice on a fixed enumerated message set,
the second run inserts zero rows and skips every message, leaves the
database unchanged, every message's identity key is committed after the
first run, and a key not present before ends up with exactly one row. -/
theorem sync_idempotent (db : DB) (a : Nat) (p : Protocol)
    (msgs : List Msg) :
    (runCycle (runCycle db a p msgs).db a p msgs).inserted = 0 ∧
    (runCycle (runCycle db a p msgs).db a p msgs).skipped = msgs.length ∧
    (runCycle (runCycle db a p msgs).db a p msgs).db
      = (runCycle db a p msgs).db ∧
    (∀ m ∈ msgs,
      existsUid (runCycle db a p msgs).db (uniqueId p m) = true) ∧
    (∀ m ∈ msgs, existsUid db (uniqueId p m) = false →
      countKey (runCycle db a p msgs).db.committed (uniqueId p m) = 1) := by
  have hseen : ∀ m ∈ msgs,
      existsUid (runCycle db a p msgs).db (uniqueId p m) = true := by
    intro m hm
    rw [show (runCycle db a p msgs).db
        = commitDB (processMsgs a p ⟨db, 0, 0⟩ msgs).db from rfl,
      existsUid_commitDB, existsUid_processMsgs]
    have hany : (msgs.any fun x => uniqueId p x == uniqueId p m) = true :=
      List.any_eq_true.mpr ⟨m, hm, by simp⟩
    simp [hany]
  have hpend : (runCycle db a p msgs).db.pending = [] := rfl
  have hskip := processMsgs_all_skip a p ⟨(runCycle db a p msgs).db, 0, 0⟩
    msgs (fun m hm => hseen m hm)
  have hrun2 : runCycle (runCycle db a p msgs).db a p msgs
      = ⟨(runCycle db a p msgs).db, 0, msgs.length⟩ := by
    show (⟨commitDB (processMsgs a p ⟨(runCycle db a p msgs).db, 0, 0⟩
        msgs).db,
      (processMsgs a p ⟨(runCycle db a p msgs).db, 0, 0⟩ msgs).inserted,
      (processMsgs a p ⟨(runCycle db a p msgs).db, 0, 0⟩ msgs).skipped⟩
        : CycleRes) = _
    rw [hskip]
    simp [commitDB_pending_empty _ hpend]
  refine ⟨by rw [hrun2], by rw [hrun2], by rw [hrun2], hseen, ?_⟩
  intro m hm hf
  rw [show (runCycle db a p msgs).db.committed
      = tableRows (processMsgs a p ⟨db, 0, 0⟩ msgs).db from rfl,
    countKey_processMsgs]
  have hany : (msgs.any fun x => uniqueId p x == uniqueId p m) = true :=
    List.any_eq_true.mpr ⟨m, hm, by simp⟩
  simp [hf, hany]

/-- Claim C1 witness: the Variant A scenario of spec section 8 item 4 with
identifiers 101 and 102 — first sync archives both, second sync inserts
nothing and skips both. -/
theorem sync_idempotent_witness :
    (runCycle (runCycle ⟨[], []⟩ 1 .imap [m101, m102]).db 1 .imap
      [m101, m102]).inserted = 0 ∧
    (runCycle (runCycle ⟨[], []⟩ 1 .imap [m101, m102]).db 1 .imap
      [m101, m102]).skipped = 2 ∧
    countKey (runCycle ⟨[], []⟩ 1 .imap [m101, m102]).db.committed "101"
      = 1 := by
  obtain ⟨h1, h2, h3, h4, h5⟩ := sync_idempotent ⟨[], []⟩ 1 .imap [m101, m102]
  exact ⟨h1, h2, h5 m101 (by simp) (by decide)⟩

/-! Claim C2 (failure atomicity of an account's batch). -/

/-- Claim C2, counterexample: a cycle for account 1 dies after buffering
the message with key 101; the handler neither commits nor rolls back, so
when account 2's later cycle commits, the leaked row with key 101 IS
committed — refuting the claim that no row buffered during a failed cycle
is ever committed and that later cycles observe exactly the pre-failure
committed state. -/
theorem failed_batch_leaks_commit :
    (runCycleFail ⟨[], []⟩ 1 .imap [m101] 1).committed = [] ∧
    memKey (runCycle (runCycleFail ⟨[], []⟩ 1 .imap [m101] 1) 2 .imap
      [mNext]).db.committed "101" = true ∧
    memKey ([] : List Row) "101" = false :=
  ⟨rfl, rfl, rfl⟩

/-- Claim C2, amended: a failing cycle never discards its batch.  When
the failure hits before the commit at source line 173, no commit occurs
during that cycle — the committed rows at the moment it dies are exactly
those committed before it began — but the buffered rows are NOT
discarded: they stay pending on the shared connection, and every pending
key is committed by the next cycle that reaches conn.commit.  When the
failure hits while closing the session (source lines 176-180, after the
commit), the cycle is reported failed with its whole batch already
committed: nothing is left pending, its database effect equals a
successful cycle's, and every enumerated message's key is committed when
the failed cycle ends. -/
theorem failure_no_commit_but_pending_kept (db : DB) (a : Nat)
    (p : Protocol) (ms : List Msg) (j : Nat) :
    (runCycleFail db a p ms j).committed = db.committed ∧
    (∃ buf, (runCycleFail db a p ms j).pending = db.pending ++ buf) ∧
    (∀ (a2 : Nat) (p2 : Protocol) (ms2 : List Msg) (k : String),
      memKey (runCycleFail db a p ms j).pending k = true →
      memKey (runCycle (runCycleFail db a p ms j) a2 p2 ms2).db.committed k
        = true) ∧
    (runCycleFailClose db a p ms).pending = [] ∧
    runCycleFailClose db a p ms = (runCycle db a p ms).db ∧
    (∀ m ∈ ms,
      existsUid (runCycleFailClose db a p ms) (uniqueId p m) = true) := by
  refine ⟨committed_processMsgs a p ⟨db, 0, 0⟩ (ms.take j),
    pending_processMsgs a p ⟨db, 0, 0⟩ (ms.take j), ?_, rfl, rfl, ?_⟩
  · intro a2 p2 ms2 k hk
    rw [show (runCycle (runCycleFail db a p ms j) a2 p2 ms2).db.committed
        = tableRows (processMsgs a2 p2 ⟨runCycleFail db a p ms j, 0, 0⟩
            ms2).db from rfl]
    obtain ⟨buf, hb⟩ := pending_processMsgs a2 p2
      ⟨runCycleFail db a p ms j, 0, 0⟩ ms2
    rw [tableRows, committed_processMsgs, hb, memKey_append, memKey_append]
    simp [hk]
  · intro m hm
    show existsUid (commitDB (processMsgs a p ⟨db, 0, 0⟩ ms).db)
      (uniqueId p m) = true
    rw [existsUid_commitDB, existsUid_processMsgs]
    have hany : (ms.any fun x => uniqueId p x == uniqueId p m) = true :=
      List.any_eq_true.mpr ⟨m, hm, by simp⟩
    simp [hany]

/-- Claim C2 witness: the leaked pending key 101 of a pre-commit failure
is committed by a later empty cycle's commit, and a cycle dying during
close has already committed its batch's key. -/
theorem failure_no_commit_but_pending_kept_witness :
    memKey (runCycle (runCycleFail ⟨[], []⟩ 1 .imap [m101] 1) 3 .imap
      []).db.committed "101" = true ∧
    existsUid (runCycleFailClose ⟨[], []⟩ 1 .imap [m101]) "101" = true :=
  ⟨(failure_no_commit_but_pending_kept ⟨[], []⟩ 1 .imap [m101] 1).2.2.1
      3 .imap [] "101" (by decide),
   (failure_no_commit_but_pending_kept ⟨[], []⟩ 1 .imap [m101] 1).2.2.2.2.2
      m101 (by simp)⟩

/-! Claim C3 (the skip-check observes only committed state). -/

/-- Claim C3, counterexample: nothing was committed before the cycle began
(the committed table is empty, and stays empty mid-cycle), yet after
buffering mDupA the exists check for mDupB's key answers true — the SELECT
on the shared connection sees the uncommitted row, refuting the claim that
it returns true iff the key was committed before the cycle began. -/
theorem skip_check_sees_uncommitted :
    existsUid (processMsgs 1 .pop3 ⟨⟨[], []⟩, 0, 0⟩ [mDupA]).db
      (uniqueId .pop3 mDupB) = true ∧
    (processMsgs 1 .pop3 ⟨⟨[], []⟩, 0, 0⟩ [mDupA]).db.committed = [] ∧
    existsUid ⟨[], []⟩ (uniqueId .pop3 mDupB) = false :=
  ⟨rfl, rfl, rfl⟩

/-- Claim C3, amended: at any point during a cycle, the exists check for a
key answers true iff the key belongs to a row committed before the cycle
began, OR to a row left pending on the shared connection by an earlier
failed cycle, OR to a row buffered earlier in the same cycle. -/
theorem skip_check_view (a : Nat) (p : Protocol) (db : DB)
    (processed : List Msg) (k : String) :
    existsUid (processMsgs a p ⟨db, 0, 0⟩ processed).db k =
      (memKey db.committed k || memKey db.pending k
        || processed.any fun m => uniqueId p m == k) := by
  rw [existsUid_processMsgs,
    show existsUid db k = (memKey db.committed k || memKey db.pending k) by
      rw [existsUid, tableRows, memKey_append],
    Bool.or_assoc]

/-! Claim C8 (Variant B header-collision dedup). -/

/-- Claim C8: under pop3 the identity key is computed from the four headers
alone, so two messages sharing them — bodies may differ — get the same key;
in one session the second is silently skipped (one insert, one skip, one
row), and across sessions the second run inserts nothing. -/
theorem pop3_header_collision_dedup (db : DB) (a a2 : Nat) (mA mB : Msg)
    (h1 : mA.messageId = mB.messageId) (h2 : mA.date = mB.date)
    (h3 : mA.sender = mB.sender) (h4 : mA.subject = mB.subject)
    (hfresh : existsUid db (uniqueId .pop3 mA) = false) :
    uniqueId .pop3 mA = uniqueId .pop3 mB ∧
    (runCycle db a .pop3 [mA, mB]).inserted = 1 ∧
    (runCycle db a .pop3 [mA, mB]).skipped = 1 ∧
    countKey (tableRows (runCycle db a .pop3 [mA, mB]).db)
      (uniqueId .pop3 mA) = 1 ∧
    (runCycle (runCycle db a .pop3 [mA]).db a2 .pop3 [mB]).inserted = 0 := by
  have hk : uniqueId .pop3 mA = uniqueId .pop3 mB := by
    simp [uniqueId, h1, h2, h3, h4]
  have hex : existsUid (insertRow db (rowOf a .pop3 mA))
      (uniqueId .pop3 mB) = true := by
    rw [← hk, existsUid_insertRow, rowOf_unique_id]
    simp [hfresh]
  have hrun : processMsgs a .pop3 ⟨db, 0, 0⟩ [mA, mB]
      = ⟨insertRow db (rowOf a .pop3 mA), 1, 1⟩ := by
    show processMsg a .pop3 (processMsg a .pop3 ⟨db, 0, 0⟩ mA) mB = _
    rw [processMsg_insert a .pop3 ⟨db, 0, 0⟩ mA hfresh]
    exact processMsg_skip a .pop3 _ mB hex
  have hcount : countKey (tableRows (runCycle db a .pop3 [mA, mB]).db)
      (uniqueId .pop3 mA) = 1 := by
    rw [show (runCycle db a .pop3 [mA, mB]).db
        = commitDB (processMsgs a .pop3 ⟨db, 0, 0⟩ [mA, mB]).db from rfl,
      tableRows_commitDB, hrun]
    show countKey (tableRows (insertRow db (rowOf a .pop3 mA)))
      (uniqueId .pop3 mA) = 1
    rw [tableRows_insertRow, countKey_append,
      countKey_eq_zero _ _ hfresh]
    simp [countKey, rowOf_unique_id, List.filter]
  have hex2 : existsUid (runCycle db a .pop3 [mA]).db
      (uniqueId .pop3 mB) = true := by
    rw [← hk,
      show (runCycle db a .pop3 [mA]).db
        = commitDB (processMsgs a .pop3 ⟨db, 0, 0⟩ [mA]).db from rfl,
      existsUid_commitDB, existsUid_processMsgs]
    simp
  have hrun2 : processMsgs a2 .pop3 ⟨(runCycle db a .pop3 [mA]).db, 0, 0⟩
      [mB] = ⟨(runCycle db a .pop3 [mA]).db, 0, 1⟩ := by
    show processMsg a2 .pop3 ⟨(runCycle db a .pop3 [mA]).db, 0, 0⟩ mB = _
    exact processMsg_skip a2 .pop3 _ mB hex2
  refine ⟨hk, ?_, ?_, hcount, ?_⟩
  · show (processMsgs a .pop3 ⟨db, 0, 0⟩ [mA, mB]).inserted = 1
    rw [hrun]
  · show (processMsgs a .pop3 ⟨db, 0, 0⟩ [mA, mB]).skipped = 1
    rw [hrun]
  · show (processMsgs a2 .pop3 ⟨(runCycle db a .pop3 [mA]).db, 0, 0⟩
      [mB]).inserted = 0
    rw [hrun2]

/-- Claim C8 witness: the spec section 8 item 5 scenario — same
Message-ID, Date, From, Subject, different bodies — run concretely. -/
theorem pop3_header_collision_dedup_witness :
    uniqueId .pop3 mDupA = uniqueId .pop3 mDupB ∧
    (runCycle ⟨[], []⟩ 1 .pop3 [mDupA, mDupB]).inserted = 1 ∧
    (runCycle ⟨[], []⟩ 1 .pop3 [mDupA, mDupB]).skipped = 1 ∧
    countKey (tableRows (runCycle ⟨[], []⟩ 1 .pop3 [mDupA, mDupB]).db)
      (uniqueId .pop3 mDupA) = 1 ∧
    (runCycle (runCycle ⟨[], []⟩ 1 .pop3 [mDupA]).db 2 .pop3
      [mDupB]).inserted = 0 :=
  pop3_header_collision_dedup ⟨[], []⟩ 1 2 mDupA mDupB rfl rfl rfl rfl
    (by decide)

/-! Claim C9 (error isolation across accounts). -/

/-- Claim C9: one tick of the driver records exactly one outcome per
configured account, and an account whose cycle raises gets the failed
outcome while the accounts before and after it are processed exactly as
their own inputs dictate — a failure never stops the tick. -/
theorem tick_error_isolation :
    (∀ (db : DB) (inputs : List CycleInput),
      (runTick db inputs).2.length = inputs.length) ∧
    (∀ (db : DB) (pre post : List CycleInput) (a : Nat) (p : Protocol)
      (ms : List Msg) (j : Nat),
      runTick db (pre ++ CycleInput.fail a p ms j :: post)
        = ((runTick (runCycleFail (runTick db pre).1 a p ms j) post).1,
           (runTick db pre).2 ++ Outcome.failed ::
             (runTick (runCycleFail (runTick db pre).1 a p ms j)
               post).2)) := by
  constructor
  · intro db inputs
    induction inputs generalizing db with
    | nil => rfl
    | cons i is ih =>
      rw [runTick_cons]
      simp [ih]
  · intro db pre post a p ms j
    rw [runTick_append, runTick_cons]
    rfl

/-! Claim C10 (global deduplication scope). -/

/-- Claim C10: the exists check matches the identity key alone with no
account filter, so once a key is present in the table no later cycle —
whatever its account or protocol — adds another row with that key, and
every reachable database state has at most one row per identity key. -/
theorem global_dedup_invariant :
    (∀ (db : DB) (a : Nat) (p : Protocol) (ms : List Msg) (k : String),
      memKey (tableRows db) k = true →
      countKey (tableRows (runCycle db a p ms).db) k
        = countKey (tableRows db) k) ∧
    (∀ db : DB, Reachable db →
      ((tableRows db).map Row.unique_id).Nodup) := by
  constructor
  · intro db a p ms k h
    rw [show (runCycle db a p ms).db
        = commitDB (processMsgs a p ⟨db, 0, 0⟩ ms).db from rfl,
      tableRows_commitDB, countKey_processMsgs]
    simp [show existsUid db k = true from h]
  · intro db hr
    induction hr with
    | init => simp [tableRows]
    | step_ok db2 a p ms _ ih =>
      rw [show (runCycle db2 a p ms).db
          = commitDB (processMsgs a p ⟨db2, 0, 0⟩ ms).db from rfl,
        tableRows_commitDB]
      exact keys_nodup_processMsgs a p ⟨db2, 0, 0⟩ ms ih
    | step_fail db2 a p ms j _ ih =>
      exact keys_nodup_processMsgs a p ⟨db2, 0, 0⟩ (ms.take j) ih

/-- Claim C10 witness: a key committed under account 9 blocks account 2's
pop3 candidate... instantiated concretely: inserting under one account and
re-syncing under another adds no second row, and a state reached by one
successful cycle has pairwise distinct keys. -/
theorem global_dedup_invariant_witness :
    countKey (tableRows (runCycle
      ⟨[{ account_id := 9, subject := none, sender := none,
          recipients := none, date := none, body := "",
          unique_id := "101" }], []⟩ 2 .imap [m101]).db) "101"
      = countKey (tableRows
        ⟨[{ account_id := 9, subject := none, sender := none,
            recipients := none, date := none, body := "",
            unique_id := "101" }], []⟩) "101" ∧
    ((tableRows (runCycle ⟨[], []⟩ 1 .imap [m101, m102]).db).map
      Row.unique_id).Nodup :=
  ⟨global_dedup_invariant.1
      ⟨[{ account_id := 9, subject := none, sender := none,
          recipients := none, date := none, body := "",
          unique_id := "101" }], []⟩ 2 .imap [m101] "101" (by decide),
   global_dedup_invariant.2 _
      (Reachable.step_ok ⟨[], []⟩ 1 .imap [m101, m102] Reachable.init)⟩

end EmailArchiver
